import Mathlib

/-!
# Verification of the Cocoinbox outbound-mail domain-rotation subsystem

This file is a shallow embedding of the domain-rotation / quota allocator
(`DomainService`, file `backend/src/services/domainService.ts`) and of the
tiered delivery policy (`MailService`, file `backend/src/services/mailService.ts`).

Modelling conventions:
* MongoDB `ObjectId` values are modelled as natural numbers; the database
  hands out fresh ids from a counter `nextId` (mirroring `insertOne`).
* The two collections `smtp_domains` and `smtp_domain_usage` are lists of
  documents in storage (insertion) order.  `findOne` by domain id is
  `List.find?` on the stored list, `insertOne` appends, and
  `updateOne` by `_id` maps an id-guarded update over the list.
* Timestamps (`Date.getTime()`) are integers counting milliseconds; the
  one-hour window of the source is `hourMs = 60 * 60 * 1000`.
* `process.env` is an `Env` record of optional strings; JavaScript
  truthiness of an environment variable (`undefined` and `""` are falsy)
  is the function `truthy`.
* The external transports (nodemailer, Mailchimp, the smtp.dev HTTP API)
  are oracles collected in a `World` record; each send either returns a
  receipt (`Except.ok`) or fails (`Except.error`), which models a thrown
  exception from the transport library.
* Thrown JavaScript errors are `Except.error` values of type `EmailError`;
  the two `throw new Error(…)` sites of `MailService.sendEmail` are the
  `configuration` and `transportExhausted` constructors, carrying the
  exact message strings of the source.
-/

namespace CocoMail

/-- One document of the `smtp_domains` collection (interface `DomainConfig`
of the source, as stored, with the MongoDB `_id`). -/
structure DomainDoc where
  _id : Nat
  host : String
  port : Nat
  secure : Bool
  username : String
  password : String
  «from» : String
  limit : Nat
  order : Nat
  created_at : Int
deriving DecidableEq

/-- The `DomainConfig` object returned by `DomainService.getDomains`:
the stored document with `_id` exposed as `id`. -/
structure DomainConfig where
  id : Nat
  host : String
  port : Nat
  secure : Bool
  username : String
  password : String
  «from» : String
  limit : Nat
  order : Nat
  created_at : Int
deriving DecidableEq

/-- The mapping `doc ↦ DomainConfig` done inside `getDomains` /
`addDomain` (`id: doc._id.toString()` and the field copies). -/
def toConfig (d : DomainDoc) : DomainConfig :=
  { id := d._id, host := d.host, port := d.port, secure := d.secure,
    username := d.username, password := d.password, «from» := d.«from»,
    limit := d.limit, order := d.order, created_at := d.created_at }

/-- One document of the `smtp_domain_usage` collection (interface
`DomainUsage` of the source). -/
structure DomainUsage where
  _id : Nat
  domain_id : Nat
  window_start : Int
  count : Nat
deriving DecidableEq

/-- The database state: the two collections touched by `DomainService`,
plus the fresh-`ObjectId` counter. -/
structure DB where
  smtp_domains : List DomainDoc
  smtp_domain_usage : List DomainUsage
  nextId : Nat
deriving DecidableEq

/-- One hour in milliseconds, the window length `60 * 60 * 1000` of the
source. -/
def hourMs : Int := 60 * 60 * 1000

/-- The sort key of `.sort({ order: 1 })`: ascending by the `order`
field. -/
def byOrder (a b : DomainDoc) : Prop := a.order ≤ b.order

instance : DecidableRel byOrder := fun a b => Nat.decLe a.order b.order

instance : IsTotal DomainDoc byOrder := ⟨fun a b => Nat.le_total a.order b.order⟩

instance : IsTrans DomainDoc byOrder := ⟨fun _ _ _ h h2 => Nat.le_trans h h2⟩

/-- The `smtp_domains` collection sorted ascending by `order`
(`.find().sort({order: 1})`).  MongoDB leaves the order of ties
unspecified; the model fixes the natural deterministic reading, a stable
sort, so ties keep their storage order. -/
def sortedDomains (db : DB) : List DomainDoc :=
  List.insertionSort byOrder db.smtp_domains

/-- Model of `DomainService.getDomains`: all configured domains sorted by `order`,
mapped into `DomainConfig` objects. -/
def getDomains (db : DB) : List DomainConfig :=
  (sortedDomains db).map toConfig

/-- Model of `findOne` by `domain_id` on the `smtp_domain_usage` collection: the
first stored usage document of the given domain. -/
def usageFor (db : DB) (domainId : Nat) : Option DomainUsage :=
  db.smtp_domain_usage.find? (fun u => u.domain_id == domainId)

/-- The `$set {window_start, count}` update applied to one usage document
when its `_id` matches (`updateOne({_id}, {$set: …})`). -/
def updFn (uid : Nat) (ws : Int) (c : Nat) (u : DomainUsage) : DomainUsage :=
  if u._id == uid then { u with window_start := ws, count := c } else u

/-- Model of `updateOne` by `_id` with a set of `window_start` and `count`
on the `smtp_domain_usage` collection. -/
def updateUsage (uid : Nat) (ws : Int) (c : Nat) (db : DB) : DB :=
  { db with smtp_domain_usage := db.smtp_domain_usage.map (updFn uid ws c) }

/-- Model of `DomainService.getUsageDoc`: load the usage document of a domain,
creating one with `window_start = now` and `count = 0` (and a fresh
`_id`) if none exists. -/
def getUsageDoc (domainId : Nat) (now : Int) (db : DB) : DomainUsage × DB :=
  match usageFor db domainId with
  | some usage => (usage, db)
  | none =>
    let newUsage : DomainUsage :=
      { _id := db.nextId, domain_id := domainId, window_start := now, count := 0 }
    (newUsage,
     { db with smtp_domain_usage := db.smtp_domain_usage ++ [newUsage],
               nextId := db.nextId + 1 })

/-- Model of `DomainService.hasQuota`: load (or create) the usage document; if the
window has expired (`elapsed >= 60*60*1000`) persist a reset
(`window_start = now`, `count = 0`); report `available = count < limit`
on the (possibly reset) record. -/
def hasQuota (domain : DomainConfig) (now : Int) (db : DB) : (Bool × DomainUsage) × DB :=
  let res := getUsageDoc domain.id now db
  let elapsed := now - res.1.window_start
  let upd :=
    if hourMs ≤ elapsed then
      let usage := { res.1 with window_start := now, count := 0 }
      (usage, updateUsage usage._id usage.window_start usage.count res.2)
    else res
  ((decide (upd.1.count < domain.limit), upd.1), upd.2)

/-- Model of `DomainService.incrementUsage`: load (or create) the usage document;
if the window has expired start a new window with `count = 1`, otherwise
increment `count`; persist the result. -/
def incrementUsage (domainId : Nat) (now : Int) (db : DB) : DB :=
  let res := getUsageDoc domainId now db
  let usage :=
    if hourMs ≤ now - res.1.window_start then
      { res.1 with window_start := now, count := 1 }
    else
      { res.1 with count := res.1.count + 1 }
  updateUsage usage._id usage.window_start usage.count res.2

/-- Model of `DomainService.recordUsage`: public wrapper around `incrementUsage`. -/
def recordUsage (domainId : Nat) (now : Int) (db : DB) : DB :=
  incrementUsage domainId now db

/-- The `for (const domain of domains)` loop of
`getNextAvailableDomain`: check quota on each domain in turn, returning
the first available one. -/
def findAvailable (now : Int) : List DomainConfig → DB → Option DomainConfig × DB
  | [], db => (none, db)
  | domain :: rest, db =>
    let res := hasQuota domain now db
    if res.1.1 then (some domain, res.2) else findAvailable now rest res.2

/-- Model of `DomainService.getNextAvailableDomain`: first domain, in `order`
priority, with remaining quota; `none` (JavaScript `undefined`) if no
domain qualifies. -/
def getNextAvailableDomain (now : Int) (db : DB) : Option DomainConfig × DB :=
  findAvailable now (getDomains db) db

/-- The caller-supplied argument of `addDomain` (`order`
optional). -/
structure DomainInput where
  host : String
  port : Nat
  secure : Bool
  username : String
  password : String
  «from» : String
  limit : Nat
  order : Option Nat
deriving DecidableEq

/-- The document built by `DomainService.addDomain`: the fields given by the caller,
`order` defaulting to `countDocuments()` of `smtp_domains`, a fresh
`_id`, and `created_at = now`. -/
def newDomainDoc (config : DomainInput) (now : Int) (db : DB) : DomainDoc :=
  { _id := db.nextId, host := config.host, port := config.port,
    secure := config.secure, username := config.username,
    password := config.password, «from» := config.«from»,
    limit := config.limit,
    order := config.order.getD db.smtp_domains.length,
    created_at := now }

/-- Model of `DomainService.addDomain`: insert the new document into
`smtp_domains` and return it as a `DomainConfig`.  (The catch-and-return-null
branch of the source is unreachable in the pure model.) -/
def addDomain (config : DomainInput) (now : Int) (db : DB) : DomainConfig × DB :=
  let doc := newDomainDoc config now db
  (toConfig doc,
   { db with smtp_domains := db.smtp_domains ++ [doc], nextId := db.nextId + 1 })

/-! ## MailService -/

/-- The environment variables read by `MailService` (`process.env.…`);
`none` is an unset variable. -/
structure Env where
  mailchimpApiKey : Option String
  mailchimpServer : Option String
  senderEmail : Option String
  smtpHost : Option String
  smtpPort : Option String
  smtpUser : Option String
  smtpPass : Option String
  smtpDevApiKey : Option String
  smtpDevAccountId : Option String
  smtpDevMailboxId : Option String
deriving DecidableEq

/-- JavaScript truthiness of an environment variable: unset and the
empty string are falsy. -/
def truthy : Option String → Bool
  | none => false
  | some s => !(s == "")

/-- Defaulting of an optional string, the JavaScript or-else idiom used
for the sender address environment variable. -/
def orDefault (v : Option String) (d : String) : String :=
  match v with
  | some s => if s == "" then d else s
  | none => d

/-- The message argument of `sendEmail`. -/
structure Message where
  «to» : String
  subject : String
  text : Option String
  html : Option String
deriving DecidableEq

/-- The authenticated user: `roles` may be absent (not an array). -/
structure User where
  id : String
  roles : Option (List String)
deriving DecidableEq

/-- Premium check of the source: the roles value is an array and
contains the premium marker string. -/
def isPro (user : User) : Bool :=
  match user.roles with
  | some rs => rs.contains "pro"
  | none => false

/-- The JSON body of a smtp.dev inbox `GET`: `response.data.member` may
be absent. -/
structure InboxResponse where
  member : Option (List String)
deriving DecidableEq

/-- The external transports consumed by `MailService`, as oracles.  An
`Except.error` result models a rejection / thrown exception of the
underlying library call. -/
structure World where
  mailchimpSend : String → String → String → Message → Except String String
  domainSend : DomainConfig → Message → Except String String
  envSmtpSend : String → String → String → String → String → Message → Except String String
  smtpDevPost : String → String → String → String → Message → Except String String
  smtpDevGet : String → String → String → Except String InboxResponse

/-- The value returned by `sendEmail`, tagged by the transport that
produced it. -/
inductive SendResult where
  | mailchimpResp (r : String)
  | domainInfo (r : String)
  | envInfo (r : String)
  | smtpDevData (r : String)
deriving DecidableEq

/-- Errors thrown out of `sendEmail`.  The `configuration` and
`transportExhausted` constructors are the two `throw new Error(…)` sites
of the source; `transport` is an uncaught transport rejection. -/
inductive EmailError where
  | configuration (msg : String)
  | transport (e : String)
  | transportExhausted (msg : String)
deriving DecidableEq

/-- The message of the premium-branch configuration error. -/
def mailchimpConfigMsg : String :=
  "Mailchimp API key and server prefix must be provided for premium email sending"

/-- The message of the final exhaustion error. -/
def exhaustedMsg : String :=
  "No email transport configured or free tier quota exhausted. Please add domains or upgrade to premium."

/-- The default sender address used when `SENDER_EMAIL` is not set. -/
def defaultSender : String := "no-reply@cocoinbox.app"

/-- The premium (`isPro`) branch of `sendEmail`: missing Mailchimp
configuration throws immediately; otherwise the Mailchimp transactional
API is called and its response returned. -/
def sendPremium (env : Env) (w : World) (msg : Message) (db : DB) :
    Except EmailError SendResult × DB :=
  if !(truthy env.mailchimpApiKey) || !(truthy env.mailchimpServer) then
    (.error (.configuration mailchimpConfigMsg), db)
  else
    match w.mailchimpSend (env.mailchimpApiKey.getD "") (env.mailchimpServer.getD "")
        (orDefault env.senderEmail defaultSender) msg with
    | .ok r => (.ok (.mailchimpResp r), db)
    | .error e => (.error (.transport e), db)

/-- The `try { … } catch (e) { console.error(…) }` block of the free
branch (strategy 1): ask the allocator for a domain; if one is returned,
attempt the send through it and on success record usage and return the
transport info.  A transport failure is caught (logged) and yields
`none`, falling through to the next strategy with the database as the
allocator left it. -/
def tryDomainSend (w : World) (msg : Message) (now : Int) (db : DB) :
    Option SendResult × DB :=
  match getNextAvailableDomain now db with
  | (some domain, db1) =>
    match w.domainSend domain msg with
    | .ok info => (some (.domainInfo info), recordUsage domain.id now db1)
    | .error _e => (none, db1)
  | (none, db1) => (none, db1)

/-- All four static SMTP environment values present (strategy 2 guard). -/
def envSmtpConfigured (env : Env) : Bool :=
  truthy env.smtpHost && truthy env.smtpPort && truthy env.smtpUser && truthy env.smtpPass

/-- All three smtp.dev credentials present (strategy 3 guard, also used
by `receiveEmails`). -/
def smtpDevConfigured (env : Env) : Bool :=
  truthy env.smtpDevApiKey && truthy env.smtpDevAccountId && truthy env.smtpDevMailboxId

/-- Strategies 2 and 3 of the free branch of `sendEmail`: the static
environment-configured SMTP transport, then the smtp.dev HTTP API, then
the final exhaustion error.  Note that a failure of the static SMTP
transport is **not** caught: it propagates, and the smtp.dev strategy is
reached only when the static SMTP variables are not all configured. -/
def sendFallback (env : Env) (w : World) (msg : Message) (db : DB) :
    Except EmailError SendResult × DB :=
  let fromEmail := orDefault env.senderEmail defaultSender
  if envSmtpConfigured env then
    match w.envSmtpSend (env.smtpHost.getD "") (env.smtpPort.getD "")
        (env.smtpUser.getD "") (env.smtpPass.getD "") fromEmail msg with
    | .ok info => (.ok (.envInfo info), db)
    | .error e => (.error (.transport e), db)
  else if smtpDevConfigured env then
    match w.smtpDevPost (env.smtpDevApiKey.getD "") (env.smtpDevAccountId.getD "")
        (env.smtpDevMailboxId.getD "") fromEmail msg with
    | .ok data => (.ok (.smtpDevData data), db)
    | .error e => (.error (.transport e), db)
  else
    (.error (.transportExhausted exhaustedMsg), db)

/-- Model of `MailService.sendEmail`: premium branch, then the three free-tier
strategies in order. -/
def sendEmail (env : Env) (w : World) (user : User) (msg : Message) (now : Int) (db : DB) :
    Except EmailError SendResult × DB :=
  if isPro user then sendPremium env w msg db
  else
    match tryDomainSend w msg now db with
    | (some r, db1) => (.ok r, db1)
    | (none, db1) => sendFallback env w msg db1

/-- Model of `MailService.receiveEmails`: premium users get an empty list; free
users get the smtp.dev inbox listing when the three credentials are
configured, and an empty list otherwise.  An `Except.error` result can
only arise from a failing inbox fetch, never from missing credentials. -/
def receiveEmails (env : Env) (w : World) (user : User) : Except String (List String) :=
  if isPro user then .ok []
  else if smtpDevConfigured env then
    match w.smtpDevGet (env.smtpDevApiKey.getD "") (env.smtpDevAccountId.getD "")
        (env.smtpDevMailboxId.getD "") with
    | .ok resp => .ok (resp.member.getD [])
    | .error e => .error e
  else .ok []

/-! ## Pure views and database invariants used by the specifications -/

/-- The availability verdict of `hasQuota` for a domain, read off the
database state without running the check: a missing usage record
behaves like a fresh window with `count = 0`, an expired window is
treated as reset, and otherwise the stored count is compared against
the limit. -/
def availPure (db : DB) (now : Int) (d : DomainConfig) : Bool :=
  match usageFor db d.id with
  | none => decide (0 < d.limit)
  | some u =>
    if hourMs ≤ now - u.window_start then decide (0 < d.limit)
    else decide (u.count < d.limit)

/-- Well-formedness of the `smtp_domain_usage` collection as MongoDB
guarantees it: `_id`s are pairwise distinct, and every stored `_id` is
below the fresh-id counter. -/
def UsageIdsOk (db : DB) : Prop :=
  (db.smtp_domain_usage.map (fun u => u._id)).Nodup ∧
  ∀ u ∈ db.smtp_domain_usage, u._id < db.nextId

/-! ## Concrete inputs for the executable scenarios -/

/-- A domain document with the given id, priority, limit and host. -/
def mkDoc (i : Nat) (ord : Nat) (lim : Nat) (h : String) : DomainDoc :=
  { _id := i, host := h, port := 25, secure := false, username := "user",
    password := "pass", «from» := "noreply@example.test", limit := lim,
    order := ord, created_at := 0 }

/-- Registry of three domains with priorities 0, 1, 2 and limit 1 each,
no usage recorded yet. -/
def db3 : DB :=
  { smtp_domains := [mkDoc 1 0 1 "h0", mkDoc 2 1 1 "h1", mkDoc 3 2 1 "h2"],
    smtp_domain_usage := [], nextId := 4 }

/-- An environment with every variable unset. -/
def envFree : Env :=
  { mailchimpApiKey := none, mailchimpServer := none, senderEmail := none,
    smtpHost := none, smtpPort := none, smtpUser := none, smtpPass := none,
    smtpDevApiKey := none, smtpDevAccountId := none, smtpDevMailboxId := none }

/-- An environment with every variable set to a non-empty value. -/
def envFull : Env :=
  { mailchimpApiKey := some "mc-key", mailchimpServer := some "us1",
    senderEmail := some "sender@example.test",
    smtpHost := some "smtp.fallback.test", smtpPort := some "587",
    smtpUser := some "fbuser", smtpPass := some "fbpass",
    smtpDevApiKey := some "dev-key", smtpDevAccountId := some "acct",
    smtpDevMailboxId := some "mbox" }

/-- A world in which every transport succeeds; the per-domain transport
reports the host it delivered through. -/
def okWorld : World :=
  { mailchimpSend := fun _ _ _ _ => .ok "mc-resp",
    domainSend := fun d _ => .ok d.host,
    envSmtpSend := fun _ _ _ _ _ _ => .ok "env-info",
    smtpDevPost := fun _ _ _ _ _ => .ok "dev-data",
    smtpDevGet := fun _ _ _ => .ok { member := some ["m1", "m2"] } }

/-- A world in which the static environment-configured SMTP transport
fails while the smtp.dev transport would succeed. -/
def smtpDownWorld : World :=
  { okWorld with envSmtpSend := fun _ _ _ _ _ _ => .error "smtp-down" }

/-- A free-tier user. -/
def freeUser : User := { id := "u1", roles := some [] }

/-- A premium user. -/
def proUser : User := { id := "u2", roles := some ["pro"] }

/-- A fixed message. -/
def msg1 : Message :=
  { «to» := "rcpt@example.test", subject := "hello", text := some "body", html := none }

/-- First free-tier send of the rotation scenario. -/
def send1 : Except EmailError SendResult × DB :=
  sendEmail envFree okWorld freeUser msg1 0 db3

/-- Second free-tier send of the rotation scenario. -/
def send2 : Except EmailError SendResult × DB :=
  sendEmail envFree okWorld freeUser msg1 0 send1.2

/-- Third free-tier send of the rotation scenario. -/
def send3 : Except EmailError SendResult × DB :=
  sendEmail envFree okWorld freeUser msg1 0 send2.2

/-- Fourth free-tier send of the rotation scenario. -/
def send4 : Except EmailError SendResult × DB :=
  sendEmail envFree okWorld freeUser msg1 0 send3.2

/-- A database with no domains and no usage records. -/
def emptyDB : DB := { smtp_domains := [], smtp_domain_usage := [], nextId := 1 }

/-- A single configured domain with limit 1. -/
def sampleDoc : DomainDoc := mkDoc 1 0 1 "h0"

/-- A usage record for `sampleDoc` that exhausts its quota inside an
unexpired window starting at time 0. -/
def sampleUsage : DomainUsage :=
  { _id := 10, domain_id := 1, window_start := 0, count := 1 }

/-- A database whose single domain has its quota exhausted in a fresh
window. -/
def dbExhausted : DB :=
  { smtp_domains := [sampleDoc], smtp_domain_usage := [sampleUsage], nextId := 11 }

/-- The environment of the fall-through counterexample: no premium
configuration, but both the static SMTP variables and the smtp.dev
credentials fully set. -/
def envC2 : Env := { envFull with mailchimpApiKey := none, mailchimpServer := none }

/-- A usage record with a fresh window and no sends yet. -/
def freshUsage : DomainUsage := { _id := 10, domain_id := 1, window_start := 0, count := 0 }

/-- A database whose single domain has an untouched usage record. -/
def dbFresh : DB :=
  { smtp_domains := [sampleDoc], smtp_domain_usage := [freshUsage], nextId := 11 }

/-- A caller-supplied domain configuration with the `order` field
omitted. -/
def sampleInput : DomainInput :=
  { host := "h3", port := 25, secure := false, username := "user",
    password := "pass", «from» := "noreply@example.test", limit := 2, order := none }

/-! ## Helper lemmas -/

lemma updFn_domain_id (uid : Nat) (ws : Int) (c : Nat) (u : DomainUsage) :
    (updFn uid ws c u).domain_id = u.domain_id := by
  unfold updFn; split <;> rfl

lemma updFn_id_eq (uid : Nat) (ws : Int) (c : Nat) (u : DomainUsage) :
    (updFn uid ws c u)._id = u._id := by
  unfold updFn; split <;> rfl

lemma updFn_of_ne (uid : Nat) (ws : Int) (c : Nat) (u : DomainUsage) (h : u._id ≠ uid) :
    updFn uid ws c u = u := by
  unfold updFn
  simp [h]

lemma updFn_of_eq (ws : Int) (c : Nat) (u : DomainUsage) :
    updFn u._id ws c u = { u with window_start := ws, count := c } := by
  unfold updFn
  simp

lemma find?_append_single_ne (l : List DomainUsage) (x : DomainUsage) (j : Nat)
    (hx : (x.domain_id == j) = false) :
    (l ++ [x]).find? (fun u => u.domain_id == j) = l.find? (fun u => u.domain_id == j) := by
  rw [List.find?_append]
  have hnone : List.find? (fun u => u.domain_id == j) [x] = none := by
    rw [List.find?_cons_of_neg _ (by simp [hx])]
    rfl
  simp [hnone]

lemma find?_map_updFn (uid : Nat) (ws : Int) (c : Nat) (j : Nat) (l : List DomainUsage) :
    (l.map (updFn uid ws c)).find? (fun u => u.domain_id == j) =
      (l.find? (fun u => u.domain_id == j)).map (updFn uid ws c) := by
  rw [List.find?_map]
  have hp : ((fun u : DomainUsage => u.domain_id == j) ∘ updFn uid ws c) =
      fun u : DomainUsage => u.domain_id == j := by
    funext u
    show ((updFn uid ws c u).domain_id == j) = (u.domain_id == j)
    rw [updFn_domain_id]
  rw [hp]

lemma usageFor_updateUsage (db : DB) (uid : Nat) (ws : Int) (c : Nat) (j : Nat) :
    usageFor (updateUsage uid ws c db) j = (usageFor db j).map (updFn uid ws c) := by
  unfold usageFor updateUsage
  exact find?_map_updFn uid ws c j db.smtp_domain_usage

lemma usageFor_mem {db : DB} {j : Nat} {u : DomainUsage} (h : usageFor db j = some u) :
    u ∈ db.smtp_domain_usage ∧ u.domain_id = j := by
  unfold usageFor at h
  refine ⟨List.mem_of_find?_eq_some h, ?_⟩
  have := List.find?_some h
  simpa using this

lemma hasQuota_fst (d : DomainConfig) (now : Int) (db : DB) :
    (hasQuota d now db).1.1 = availPure db now d := by
  unfold hasQuota getUsageDoc availPure
  cases h : usageFor db d.id with
  | none =>
    simp only [h]
    norm_num [hourMs]
  | some u =>
    simp only [h]
    split_ifs <;> rfl

lemma hasQuota_snd_fresh (d : DomainConfig) (now : Int) (db : DB) (u : DomainUsage)
    (hu : usageFor db d.id = some u) (hfresh : now - u.window_start < hourMs) :
    (hasQuota d now db).2 = db := by
  unfold hasQuota getUsageDoc
  simp only [hu]
  rw [if_neg (not_le.mpr hfresh)]

lemma usageFor_hasQuota_ne (d : DomainConfig) (now : Int) (db : DB) (j : Nat)
    (hids : UsageIdsOk db) (hj : j ≠ d.id) :
    usageFor (hasQuota d now db).2 j = usageFor db j := by
  unfold hasQuota getUsageDoc
  cases h : usageFor db d.id with
  | none =>
    simp only [h]
    have hcond : ¬ (hourMs ≤ now - now) := by norm_num [hourMs]
    rw [if_neg hcond]
    unfold usageFor
    exact find?_append_single_ne _ _ _ (by simp [Ne.symm hj])
  | some u =>
    obtain ⟨hmem, hdom⟩ := usageFor_mem h
    simp only [h]
    split_ifs with hexp
    · rw [usageFor_updateUsage]
      cases hv : usageFor db j with
      | none => rfl
      | some v =>
        obtain ⟨hvmem, hvdom⟩ := usageFor_mem hv
        have hvne : v._id ≠ u._id := by
          intro he
          have hveq : v = u := List.inj_on_of_nodup_map hids.1 hvmem hmem he
          rw [hveq, hdom] at hvdom
          exact hj hvdom.symm
        simp [updFn_of_ne _ _ _ _ hvne]
    · rfl

lemma usageIdsOk_updateUsage (db : DB) (uid : Nat) (ws : Int) (c : Nat)
    (h : UsageIdsOk db) : UsageIdsOk (updateUsage uid ws c db) := by
  obtain ⟨h1, h2⟩ := h
  constructor
  · show ((db.smtp_domain_usage.map (updFn uid ws c)).map (fun u => u._id)).Nodup
    rw [List.map_map]
    have heq : ((fun u : DomainUsage => u._id) ∘ updFn uid ws c) = fun u => u._id :=
      funext fun u => updFn_id_eq uid ws c u
    rw [heq]
    exact h1
  · intro u hu
    obtain ⟨v, hv, hveq⟩ := List.mem_map.mp hu
    show u._id < db.nextId
    rw [← hveq, updFn_id_eq]
    exact h2 v hv

lemma usageIdsOk_append (db : DB) (x : DomainUsage) (h : UsageIdsOk db)
    (hx : x._id = db.nextId) :
    UsageIdsOk { db with smtp_domain_usage := db.smtp_domain_usage ++ [x],
                         nextId := db.nextId + 1 } := by
  obtain ⟨h1, h2⟩ := h
  refine ⟨?_, ?_⟩
  · simp only [List.map_append, List.map_cons, List.map_nil]
    rw [List.nodup_append]
    refine ⟨h1, List.nodup_singleton _, ?_⟩
    intro a ha hb
    simp only [List.mem_singleton] at hb
    obtain ⟨v, hv, hveq⟩ := List.mem_map.mp ha
    have hvlt := h2 v hv
    omega
  · intro u hu
    rcases List.mem_append.mp hu with hl | hr
    · exact Nat.lt_trans (h2 u hl) (Nat.lt_succ_self _)
    · simp only [List.mem_singleton] at hr
      rw [hr, hx]
      exact Nat.lt_succ_self _

lemma usageIdsOk_hasQuota (d : DomainConfig) (now : Int) (db : DB)
    (h : UsageIdsOk db) : UsageIdsOk (hasQuota d now db).2 := by
  unfold hasQuota getUsageDoc
  cases hfind : usageFor db d.id with
  | some u =>
    simp only [hfind]
    split_ifs with hexp
    · exact usageIdsOk_updateUsage db _ _ _ h
    · exact h
  | none =>
    simp only [hfind]
    have hcond : ¬ (hourMs ≤ now - now) := by norm_num [hourMs]
    rw [if_neg hcond]
    exact usageIdsOk_append db _ h rfl

lemma availPure_congr (db db0 : DB) (now : Int) (d : DomainConfig)
    (h : usageFor db d.id = usageFor db0 d.id) :
    availPure db now d = availPure db0 now d := by
  unfold availPure
  rw [h]

lemma findAvailable_spec (now : Int) (db0 : DB) (ds : List DomainConfig) (db : DB)
    (hinv : UsageIdsOk db)
    (hsync : ∀ d ∈ ds, usageFor db d.id = usageFor db0 d.id)
    (hnod : (ds.map (fun d => d.id)).Nodup) :
    (findAvailable now ds db).1 = ds.find? (fun d => availPure db0 now d) := by
  induction ds generalizing db with
  | nil => rfl
  | cons d rest ih =>
    have havail : (hasQuota d now db).1.1 = availPure db0 now d := by
      rw [hasQuota_fst]
      exact availPure_congr db db0 now d (hsync d (List.mem_cons_self d rest))
    unfold findAvailable
    dsimp only
    cases hb : availPure db0 now d with
    | true =>
      rw [havail, hb, if_pos rfl, List.find?_cons_of_pos _ hb]
    | false =>
      rw [havail, hb, if_neg (by simp), List.find?_cons_of_neg _ (by simp [hb])]
      have hdne : ∀ d2 ∈ rest, d2.id ≠ d.id := by
        intro d2 hd2 heq
        have hnotin : d.id ∉ rest.map (fun x => x.id) := (List.nodup_cons.mp hnod).1
        exact hnotin (heq ▸ List.mem_map_of_mem (fun x => x.id) hd2)
      refine ih (hasQuota d now db).2 (usageIdsOk_hasQuota d now db hinv) ?_
        (List.nodup_cons.mp hnod).2
      intro d2 hd2
      rw [usageFor_hasQuota_ne d now db d2.id hinv (hdne d2 hd2)]
      exact hsync d2 (List.mem_cons_of_mem d hd2)

lemma findAvailable_none (now : Int) (ds : List DomainConfig) (db : DB)
    (hex : ∀ d ∈ ds, ∃ u, usageFor db d.id = some u ∧
      now - u.window_start < hourMs ∧ d.limit ≤ u.count) :
    findAvailable now ds db = (none, db) := by
  induction ds with
  | nil => rfl
  | cons d rest ih =>
    obtain ⟨u, hu, hfresh, hcnt⟩ := hex d (List.mem_cons_self d rest)
    have h2 : hasQuota d now db = ((false, u), db) := by
      unfold hasQuota getUsageDoc
      simp only [hu]
      rw [if_neg (not_le.mpr hfresh)]
      simp [Nat.not_lt.mpr hcnt]
    unfold findAvailable
    rw [h2]
    simp only [Bool.false_eq_true, if_false]
    exact ih (fun d2 hd2 => hex d2 (List.mem_cons_of_mem d hd2))

lemma orderedInsert_append_single (a x : DomainDoc) (s : List DomainDoc)
    (h : byOrder a x) :
    (s ++ [x]).orderedInsert byOrder a = s.orderedInsert byOrder a ++ [x] := by
  induction s with
  | nil =>
    show List.orderedInsert byOrder a [x] = [a, x]
    rw [List.orderedInsert, if_pos h]
  | cons b s ih =>
    show List.orderedInsert byOrder a (b :: (s ++ [x])) = _
    rw [List.orderedInsert]
    by_cases hab : byOrder a b
    · rw [if_pos hab]
      show _ = (List.orderedInsert byOrder a (b :: s)) ++ [x]
      rw [List.orderedInsert, if_pos hab]
      rfl
    · rw [if_neg hab, ih]
      show _ = (List.orderedInsert byOrder a (b :: s)) ++ [x]
      rw [List.orderedInsert, if_neg hab]
      rfl

lemma insertionSort_append_single (l : List DomainDoc) (x : DomainDoc)
    (h : ∀ y ∈ l, byOrder y x) :
    List.insertionSort byOrder (l ++ [x]) = List.insertionSort byOrder l ++ [x] := by
  induction l with
  | nil => rfl
  | cons a l ih =>
    show List.insertionSort byOrder (a :: (l ++ [x])) = _
    rw [List.insertionSort, ih (fun y hy => h y (List.mem_cons_of_mem a hy)),
      orderedInsert_append_single a x _ (h a (List.mem_cons_self a l))]
    rfl

/-! ## Claim theorems -/

/-- C1: for every registry and usage state, `getNextAvailableDomain`
returns the first domain — in ascending `order`, ties broken by storage
order — whose availability check reports `count < limit`, and `none`
(JavaScript `undefined`, not an error) when no configured domain
qualifies, including the zero-domain case.  The result is the `find?`
of the pointwise availability predicate over `getDomains db`, which is
sorted ascending by `order`, is a permutation of the stored registry,
and keeps every `order`-respecting subsequence of the storage order
(stability under ties). -/
theorem getNextAvailableDomain_spec (db : DB) (now : Int)
    (hids : UsageIdsOk db)
    (hdom : (db.smtp_domains.map (fun d => d._id)).Nodup) :
    (getNextAvailableDomain now db).1 =
        (getDomains db).find? (fun d => availPure db now d) ∧
      List.Sorted (fun a b : DomainConfig => a.order ≤ b.order) (getDomains db) ∧
      List.Perm (getDomains db) (db.smtp_domains.map toConfig) ∧
      (∀ c : List DomainDoc, c.Pairwise byOrder → c.Sublist db.smtp_domains →
        c.Sublist (sortedDomains db)) := by
  have hperm : List.Perm (sortedDomains db) db.smtp_domains :=
    List.perm_insertionSort byOrder db.smtp_domains
  refine ⟨?_, ?_, ?_, ?_⟩
  · refine findAvailable_spec now db (getDomains db) db hids (fun d _ => rfl) ?_
    have hmm : (getDomains db).map (fun d => d.id) =
        (sortedDomains db).map (fun d => d._id) := by
      unfold getDomains
      rw [List.map_map]
      rfl
    rw [hmm]
    exact ((hperm.map (fun d => d._id)).nodup_iff).mpr hdom
  · exact List.Pairwise.map toConfig (fun a b hab => hab)
      (List.sorted_insertionSort byOrder db.smtp_domains)
  · exact hperm.map toConfig
  · exact fun c hp hc => List.sublist_insertionSort hp hc

/-- Witness for C1 at a concrete three-domain registry with empty usage. -/
theorem getNextAvailableDomain_spec_witness :
    UsageIdsOk db3 ∧ (db3.smtp_domains.map (fun d => d._id)).Nodup ∧
    ((getNextAvailableDomain 0 db3).1 =
        (getDomains db3).find? (fun d => availPure db3 0 d) ∧
      List.Sorted (fun a b : DomainConfig => a.order ≤ b.order) (getDomains db3) ∧
      List.Perm (getDomains db3) (db3.smtp_domains.map toConfig) ∧
      (∀ c : List DomainDoc, c.Pairwise byOrder → c.Sublist db3.smtp_domains →
        c.Sublist (sortedDomains db3))) :=
  ⟨⟨by decide, by decide⟩, by decide,
   getNextAvailableDomain_spec db3 0 ⟨by decide, by decide⟩ (by decide)⟩

/-- C2 counterexample: with an empty domain pool, all four static SMTP
variables and all three smtp.dev credentials configured, a failure of
the static SMTP transport propagates as an error to the caller — the
call does not return the (successful) result of the smtp.dev strategy, so
the claimed fall-through to strategy 4 does not happen. -/
theorem envSmtp_failure_cex :
    (sendEmail envC2 smtpDownWorld freeUser msg1 0 emptyDB).1 =
        .error (.transport "smtp-down") ∧
      (sendEmail envC2 smtpDownWorld freeUser msg1 0 emptyDB).1 ≠
        .ok (.smtpDevData "dev-data") :=
  ⟨rfl, fun h => Except.noConfusion h⟩

/-- C2 (amended): for a free-tier user, when strategy 1 yields nothing
and the four static SMTP environment values are present, a failure of
the static SMTP send propagates to the caller as a transport error;
the HTTP test-mailbox strategy is not attempted. -/
theorem envSmtp_failure_propagates (env : Env) (w : World) (user : User) (msg : Message)
    (now : Int) (db : DB) (e : String)
    (hfree : isPro user = false)
    (h1 : (tryDomainSend w msg now db).1 = none)
    (hcfg : envSmtpConfigured env = true)
    (hsend : w.envSmtpSend (env.smtpHost.getD "") (env.smtpPort.getD "")
      (env.smtpUser.getD "") (env.smtpPass.getD "")
      (orDefault env.senderEmail defaultSender) msg = .error e) :
    (sendEmail env w user msg now db).1 = .error (.transport e) := by
  unfold sendEmail
  rw [if_neg (by simp [hfree])]
  rcases htd : tryDomainSend w msg now db with ⟨r, db1⟩
  rw [htd] at h1
  cases r with
  | some r0 => exact Option.noConfusion h1
  | none =>
    show (sendFallback env w msg db1).1 = _
    unfold sendFallback
    dsimp only
    rw [if_pos hcfg, hsend]

/-- Witness for the amended C2 at a concrete configuration. -/
theorem envSmtp_failure_propagates_witness :
    isPro freeUser = false ∧
    (tryDomainSend smtpDownWorld msg1 0 emptyDB).1 = none ∧
    envSmtpConfigured envC2 = true ∧
    smtpDownWorld.envSmtpSend (envC2.smtpHost.getD "") (envC2.smtpPort.getD "")
      (envC2.smtpUser.getD "") (envC2.smtpPass.getD "")
      (orDefault envC2.senderEmail defaultSender) msg1 = .error "smtp-down" ∧
    (sendEmail envC2 smtpDownWorld freeUser msg1 0 emptyDB).1 =
      .error (.transport "smtp-down") :=
  ⟨rfl, rfl, rfl, rfl,
   envSmtp_failure_propagates envC2 smtpDownWorld freeUser msg1 0 emptyDB
     "smtp-down" rfl rfl rfl rfl⟩

/-- C3: with three domains of priorities 0, 1, 2 and limits 1, 1, 1, no
usage yet, and every per-domain transport succeeding, three consecutive
free-tier sends are delivered through domain 0, then domain 1, then
domain 2 (each recording exactly one usage on that domain, visible in
the persisted usage lists), and a fourth send with no static SMTP
fallback and no test-mailbox credentials fails with the
transport-exhausted error. -/
theorem rotation_scenario_spec :
    send1.1 = .ok (.domainInfo "h0") ∧
    send2.1 = .ok (.domainInfo "h1") ∧
    send3.1 = .ok (.domainInfo "h2") ∧
    send1.2.smtp_domain_usage =
      [{ _id := 4, domain_id := 1, window_start := 0, count := 1 }] ∧
    send2.2.smtp_domain_usage =
      [{ _id := 4, domain_id := 1, window_start := 0, count := 1 },
       { _id := 5, domain_id := 2, window_start := 0, count := 1 }] ∧
    send3.2.smtp_domain_usage =
      [{ _id := 4, domain_id := 1, window_start := 0, count := 1 },
       { _id := 5, domain_id := 2, window_start := 0, count := 1 },
       { _id := 6, domain_id := 3, window_start := 0, count := 1 }] ∧
    send4.1 = .error (.transportExhausted exhaustedMsg) :=
  ⟨rfl, rfl, rfl, rfl, rfl, rfl, rfl⟩

/-- C4: `recordUsage` on an existing record increments the persisted
count by one when the window is unexpired (keeping `window_start`), and
starts a new window with persisted count 1 — not the old count plus
one — when at least an hour has elapsed since `window_start`.  In
particular a fresh record at count 0 goes to 1, a second call in the
same window to 2, and a call after expiry back to 1. -/
theorem recordUsage_spec (db : DB) (i : Nat) (now : Int) (u : DomainUsage)
    (hu : usageFor db i = some u) :
    (now - u.window_start < hourMs →
      usageFor (recordUsage i now db) i = some { u with count := u.count + 1 }) ∧
    (hourMs ≤ now - u.window_start →
      usageFor (recordUsage i now db) i =
        some { u with window_start := now, count := 1 }) := by
  constructor
  · intro hfresh
    unfold recordUsage incrementUsage getUsageDoc
    simp only [hu]
    rw [if_neg (not_le.mpr hfresh)]
    rw [usageFor_updateUsage, hu]
    simp [updFn]
  · intro hexp
    unfold recordUsage incrementUsage getUsageDoc
    simp only [hu]
    rw [if_pos hexp]
    rw [usageFor_updateUsage, hu]
    simp [updFn]

/-- Witness for C4: a record at count 0 goes to 1 within the window and
to a reset count of 1 after expiry. -/
theorem recordUsage_spec_witness :
    usageFor dbFresh 1 = some freshUsage ∧
    5 - freshUsage.window_start < hourMs ∧
    usageFor (recordUsage 1 5 dbFresh) 1 =
      some { freshUsage with count := freshUsage.count + 1 } ∧
    hourMs ≤ hourMs - freshUsage.window_start ∧
    usageFor (recordUsage 1 hourMs dbFresh) 1 =
      some { freshUsage with window_start := hourMs, count := 1 } :=
  ⟨rfl, by decide, (recordUsage_spec dbFresh 1 5 freshUsage rfl).1 (by decide),
   by decide, (recordUsage_spec dbFresh 1 hourMs freshUsage rfl).2 (by decide)⟩

/-- C5: when the availability check runs on a domain whose record window
has been open for at least an hour, the persisted record after
the check has `count = 0` and `window_start` equal to the check time,
and the availability verdict is computed from the reset values, hence
true exactly when `limit > 0`. -/
theorem hasQuota_reset_spec (db : DB) (d : DomainConfig) (now : Int) (u : DomainUsage)
    (hu : usageFor db d.id = some u)
    (hexp : hourMs ≤ now - u.window_start) :
    usageFor (hasQuota d now db).2 d.id =
        some { u with window_start := now, count := 0 } ∧
      (hasQuota d now db).1.1 = decide (0 < d.limit) := by
  constructor
  · unfold hasQuota getUsageDoc
    simp only [hu]
    rw [if_pos hexp]
    dsimp only
    rw [usageFor_updateUsage, hu]
    simp [updFn]
  · rw [hasQuota_fst]
    unfold availPure
    simp only [hu]
    rw [if_pos hexp]

/-- Witness for C5 at an exhausted record checked one hour later. -/
theorem hasQuota_reset_spec_witness :
    usageFor dbExhausted (toConfig sampleDoc).id = some sampleUsage ∧
    hourMs ≤ hourMs - sampleUsage.window_start ∧
    (usageFor (hasQuota (toConfig sampleDoc) hourMs dbExhausted).2
        (toConfig sampleDoc).id =
        some { sampleUsage with window_start := hourMs, count := 0 } ∧
      (hasQuota (toConfig sampleDoc) hourMs dbExhausted).1.1 =
        decide (0 < (toConfig sampleDoc).limit)) :=
  ⟨rfl, by decide,
   hasQuota_reset_spec dbExhausted (toConfig sampleDoc) hourMs sampleUsage rfl (by decide)⟩

/-- C6: for a premium user, if either Mailchimp configuration value is
absent (or empty), `sendEmail` returns the configuration error with the
database unchanged — for every transport world, so no allocator, SMTP
or test-mailbox activity can be observed and no usage record is
modified. -/
theorem premium_missing_config_spec (env : Env) (w : World) (user : User) (msg : Message)
    (now : Int) (db : DB)
    (hpro : isPro user = true)
    (hmiss : truthy env.mailchimpApiKey = false ∨ truthy env.mailchimpServer = false) :
    sendEmail env w user msg now db =
      (.error (.configuration mailchimpConfigMsg), db) := by
  unfold sendEmail
  rw [if_pos hpro]
  unfold sendPremium
  rcases hmiss with h | h <;> rw [if_pos (by simp [h])]

/-- Witness for C6: a premium user with no Mailchimp configuration. -/
theorem premium_missing_config_spec_witness :
    isPro proUser = true ∧
    (truthy envFree.mailchimpApiKey = false ∨
      truthy envFree.mailchimpServer = false) ∧
    sendEmail envFree okWorld proUser msg1 0 emptyDB =
      (.error (.configuration mailchimpConfigMsg), emptyDB) :=
  ⟨rfl, Or.inl rfl,
   premium_missing_config_spec envFree okWorld proUser msg1 0 emptyDB rfl (Or.inl rfl)⟩

/-- C7: for a free-tier user whose every configured domain has an
unexpired usage record at or over its limit, with the four static SMTP
variables present and that transport succeeding, `sendEmail` returns
the static-fallback result and leaves the database unchanged, so no
per-domain usage count is incremented. -/
theorem exhausted_pool_env_fallback_spec (env : Env) (w : World) (user : User)
    (msg : Message) (now : Int) (db : DB) (info : String)
    (hfree : isPro user = false)
    (hex : ∀ d ∈ getDomains db, ∃ u, usageFor db d.id = some u ∧
      now - u.window_start < hourMs ∧ d.limit ≤ u.count)
    (hcfg : envSmtpConfigured env = true)
    (hsend : w.envSmtpSend (env.smtpHost.getD "") (env.smtpPort.getD "")
      (env.smtpUser.getD "") (env.smtpPass.getD "")
      (orDefault env.senderEmail defaultSender) msg = .ok info) :
    sendEmail env w user msg now db = (.ok (.envInfo info), db) := by
  unfold sendEmail
  rw [if_neg (by simp [hfree])]
  have ht : tryDomainSend w msg now db = (none, db) := by
    unfold tryDomainSend getNextAvailableDomain
    rw [findAvailable_none now (getDomains db) db hex]
  rw [ht]
  unfold sendFallback
  dsimp only
  rw [if_pos hcfg, hsend]

/-- Witness for C7: one domain, quota exhausted in a fresh window, full
static SMTP configuration, successful fallback transport. -/
theorem exhausted_pool_env_fallback_spec_witness :
    isPro freeUser = false ∧
    (∀ d ∈ getDomains dbExhausted, ∃ u, usageFor dbExhausted d.id = some u ∧
      (5:Int) - u.window_start < hourMs ∧ d.limit ≤ u.count) ∧
    envSmtpConfigured envFull = true ∧
    sendEmail envFull okWorld freeUser msg1 5 dbExhausted =
      (.ok (.envInfo "env-info"), dbExhausted) := by
  have hex : ∀ d ∈ getDomains dbExhausted, ∃ u, usageFor dbExhausted d.id = some u ∧
      (5:Int) - u.window_start < hourMs ∧ d.limit ≤ u.count := by
    intro d hd
    have hd2 : d ∈ [toConfig sampleDoc] := hd
    rw [List.mem_singleton] at hd2
    subst hd2
    exact ⟨sampleUsage, rfl, by decide, by decide⟩
  exact ⟨rfl, hex, rfl,
    exhausted_pool_env_fallback_spec envFull okWorld freeUser msg1 5 dbExhausted
      "env-info" rfl hex rfl rfl⟩

/-- C8: `receiveEmails` is a two-branch dispatch: a premium user always
gets the empty list; a free user gets the mailbox listing when all
three test-mailbox credentials are configured and the empty list
otherwise — missing credentials never produce an error. -/
theorem receiveEmails_spec (env : Env) (w : World) (user : User) :
    (isPro user = true → receiveEmails env w user = .ok []) ∧
    (isPro user = false → smtpDevConfigured env = false →
      receiveEmails env w user = .ok []) ∧
    (∀ resp, isPro user = false → smtpDevConfigured env = true →
      w.smtpDevGet (env.smtpDevApiKey.getD "") (env.smtpDevAccountId.getD "")
        (env.smtpDevMailboxId.getD "") = .ok resp →
      receiveEmails env w user = .ok (resp.member.getD [])) := by
  refine ⟨?_, ?_, ?_⟩
  · intro h
    unfold receiveEmails
    rw [if_pos h]
  · intro h hc
    unfold receiveEmails
    rw [if_neg (by simp [h]), if_neg (by simp [hc])]
  · intro resp h hc hg
    unfold receiveEmails
    rw [if_neg (by simp [h]), if_pos hc, hg]

/-- Witness for C8 in the three reachable configurations. -/
theorem receiveEmails_spec_witness :
    isPro proUser = true ∧
    receiveEmails envFree okWorld proUser = .ok [] ∧
    isPro freeUser = false ∧ smtpDevConfigured envFree = false ∧
    receiveEmails envFree okWorld freeUser = .ok [] ∧
    smtpDevConfigured envFull = true ∧
    receiveEmails envFull okWorld freeUser = .ok ["m1", "m2"] :=
  ⟨rfl, (receiveEmails_spec envFree okWorld proUser).1 rfl, rfl, rfl,
   (receiveEmails_spec envFree okWorld freeUser).2.1 rfl rfl, rfl,
   (receiveEmails_spec envFull okWorld freeUser).2.2
     { member := some ["m1", "m2"] } rfl rfl rfl⟩

/-- C9: the availability check on a domain whose usage record exists
and whose window is strictly unexpired performs no write — the whole
database, and in particular the `window_start` and `count` of the record,
are unchanged. -/
theorem hasQuota_fresh_no_write_spec (db : DB) (d : DomainConfig) (now : Int)
    (u : DomainUsage)
    (hu : usageFor db d.id = some u)
    (hfresh : now - u.window_start < hourMs) :
    (hasQuota d now db).2 = db ∧
      usageFor (hasQuota d now db).2 d.id = usageFor db d.id := by
  have h := hasQuota_snd_fresh d now db u hu hfresh
  exact ⟨h, by rw [h]⟩

/-- Witness for C9 at an existing unexpired record. -/
theorem hasQuota_fresh_no_write_spec_witness :
    usageFor dbExhausted (toConfig sampleDoc).id = some sampleUsage ∧
    (5:Int) - sampleUsage.window_start < hourMs ∧
    ((hasQuota (toConfig sampleDoc) 5 dbExhausted).2 = dbExhausted ∧
      usageFor (hasQuota (toConfig sampleDoc) 5 dbExhausted).2
          (toConfig sampleDoc).id =
        usageFor dbExhausted (toConfig sampleDoc).id) :=
  ⟨rfl, by decide,
   hasQuota_fresh_no_write_spec dbExhausted (toConfig sampleDoc) 5 sampleUsage rfl
     (by decide)⟩

/-- C10: `addDomain` with the `order` field omitted gives the new
domain an `order` equal to the number of existing domain documents,
stores it at the end of the collection, and — when every prior order is
below that count, as when all were defaulted — the new domain sorts
after every previously added domain in the priority ordering. -/
theorem addDomain_default_order_spec (config : DomainInput) (now : Int) (db : DB)
    (hord : config.order = none)
    (hprior : ∀ d ∈ db.smtp_domains, d.order < db.smtp_domains.length) :
    (addDomain config now db).1.order = db.smtp_domains.length ∧
      (addDomain config now db).2.smtp_domains =
        db.smtp_domains ++ [newDomainDoc config now db] ∧
      sortedDomains (addDomain config now db).2 =
        sortedDomains db ++ [newDomainDoc config now db] := by
  have h1 : (newDomainDoc config now db).order = db.smtp_domains.length := by
    unfold newDomainDoc
    rw [hord]
    rfl
  refine ⟨h1, rfl, ?_⟩
  show List.insertionSort byOrder (db.smtp_domains ++ [newDomainDoc config now db]) = _
  apply insertionSort_append_single
  intro y hy
  show y.order ≤ (newDomainDoc config now db).order
  rw [h1]
  exact Nat.le_of_lt (hprior y hy)

/-- Witness for C10: a fourth domain added to the three-domain registry
with orders 0, 1, 2. -/
theorem addDomain_default_order_spec_witness :
    sampleInput.order = none ∧
    (∀ d ∈ db3.smtp_domains, d.order < db3.smtp_domains.length) ∧
    ((addDomain sampleInput 7 db3).1.order = db3.smtp_domains.length ∧
      (addDomain sampleInput 7 db3).2.smtp_domains =
        db3.smtp_domains ++ [newDomainDoc sampleInput 7 db3] ∧
      sortedDomains (addDomain sampleInput 7 db3).2 =
        sortedDomains db3 ++ [newDomainDoc sampleInput 7 db3]) :=
  ⟨rfl, by decide, addDomain_default_order_spec sampleInput 7 db3 rfl (by decide)⟩

end CocoMail
